import Mathlib

/-!
Shallow embedding of the service-install reconciliation engine of
`src/features/ci-cd/hooks/service-installs.ts` (open-balena-api).

The store is modelled as an explicit record of entity rows (`DB`); every
operation returns the updated store together with a trace of the store
operations it issued (`StoreOp`), each tagged with the permission context
it ran under.  Relational filters are compiled to Bool-valued predicates
over the rows.  The per-device creation fan-out of
`createReleaseServiceInstalls` decides every write against the single
existing-install read performed up front, so its effect is rendered as one
batch of created rows appended to the store.
-/

/-- Permission context an api call runs under: the mutation caller's
context, or the elevated root context. -/
inductive Perm where
  | caller
  | root
deriving DecidableEq, Repr

/-- The pinejs client handle: carries its permission context. -/
structure Api where
  perm : Perm
deriving DecidableEq, Repr

/-- A `device` row. -/
structure Device where
  id : Nat
  belongs_to__application : Nat
  should_be_running__release : Option Nat
  should_be_managed_by__release : Option Nat
  is_running__release : Option Nat
deriving DecidableEq, Repr

/-- An `application` row. -/
structure Application where
  id : Nat
  should_be_running__release : Option Nat
deriving DecidableEq, Repr

/-- A `service` row (a service belongs to one application). -/
structure Service where
  id : Nat
  application : Nat
deriving DecidableEq, Repr

/-- An `image` row joined with `image_is_part_of_release`: the image is
built by `service` and is part of `release`. -/
structure ImagePart where
  service : Nat
  release : Nat
deriving DecidableEq, Repr

/-- A `service_install` row: join entity between one device and one
service. -/
structure ServiceInstall where
  device : Nat
  installs__service : Nat
deriving DecidableEq, Repr

/-- The data store state. -/
structure DB where
  devices : List Device
  applications : List Application
  services : List Service
  imageParts : List ImagePart
  releases : List Nat
  serviceInstalls : List ServiceInstall
deriving DecidableEq, Repr

/-- A store operation issued through the api, tagged with the permission
context it ran under. -/
inductive StoreOp where
  | readDevices (p : Perm)
  | readServices (p : Perm)
  | readInstalls (p : Perm)
  | createInstall (p : Perm) (device service : Nat)
  | deleteInstalls (p : Perm) (deviceIds : List Nat)
  | postDevicesNotify (p : Perm) (targets : List Nat)
deriving DecidableEq, Repr

/-- The permission context an operation was issued under. -/
def StoreOp.permOf : StoreOp → Perm
  | .readDevices p => p
  | .readServices p => p
  | .readInstalls p => p
  | .createInstall p _ _ => p
  | .deleteInstalls p _ => p
  | .postDevicesNotify p _ => p

/-- Is the operation a `service_install` delete? -/
def StoreOp.isDelete : StoreOp → Bool
  | .deleteInstalls _ _ => true
  | _ => false

/-- Is the operation a `service_install` create? -/
def StoreOp.isCreate : StoreOp → Bool
  | .createInstall _ _ _ => true
  | _ => false

/-- Is the operation the existing-install read? -/
def StoreOp.isInstallRead : StoreOp → Bool
  | .readInstalls _ => true
  | _ => false

/-- The release filter argument of `createReleaseServiceInstalls`: either
`{ id: releaseId }`, or the filter selecting the releases pinned as the
default of a given application
(`should_be_running_on__application: { $any: { ... a.id = appId } }`). -/
inductive ReleaseFilter where
  | byId (releaseId : Nat)
  | pinnedByApp (appId : Nat)
deriving DecidableEq, Repr

/-- Semantics of a release filter on a release id. -/
def releaseMatches (db : DB) (rf : ReleaseFilter) (releaseId : Nat) : Bool :=
  match rf with
  | .byId i => releaseId == i
  | .pinnedByApp a =>
      db.applications.any fun app =>
        app.id == a && app.should_be_running__release == some releaseId

/-- The device filter object used by the application-pin hook:
`{ belongs_to__application: { $in: appIds }, should_be_running__release: null }`. -/
def deviceFilterMatches (appIds : List Nat) (d : Device) : Bool :=
  appIds.contains d.belongs_to__application &&
    d.should_be_running__release == none

/-- The `deviceFilterOrIds` argument: an explicit id list, or the filter
object selecting the unpinned devices of the given applications. -/
inductive DeviceSelector where
  | ids (l : List Nat)
  | unpinnedInApps (appIds : List Nat)
deriving DecidableEq, Repr

/-- The concrete device id list the selector resolves to. -/
def resolvedIds (db : DB) : DeviceSelector → List Nat
  | .ids l => l
  | .unpinnedInApps appIds =>
      (db.devices.filter (deviceFilterMatches appIds)).map (·.id)

/-- The trace of the selector resolution: a filter object costs one device
read, an explicit id list costs none. -/
def resolveOps (api : Api) : DeviceSelector → List StoreOp
  | .ids _ => []
  | .unpinnedInApps _ => [StoreOp.readDevices api.perm]

/-- The JS check `deviceFilterOrIds.length === 0`: for an array this is the
length test, for a filter object `.length` is `undefined` and the strict
comparison with `0` is false. -/
def selectorLengthIsZero : DeviceSelector → Bool
  | .ids l => l.length == 0
  | .unpinnedInApps _ => false

/-- Service ids of the services built into any release matched by the
filter, via image → image_is_part_of_release → release. -/
def releaseServices (db : DB) (rf : ReleaseFilter) : List Nat :=
  (db.services.filter fun s =>
    db.imageParts.any fun ip =>
      ip.service == s.id &&
        db.releases.any fun r => r == ip.release && releaseMatches db rf r
  ).map (·.id)

/-- The device part of the existing-install read filter: `$in` over the id
list, or an existential over devices matching the filter object. -/
def selectorInstallMatches (db : DB) (sel : DeviceSelector)
    (si : ServiceInstall) : Bool :=
  match sel with
  | .ids l => l.contains si.device
  | .unpinnedInApps appIds =>
      db.devices.any fun d => d.id == si.device && deviceFilterMatches appIds d

/-- The single existing-install read: rows of the selected devices whose
service is one of the release's services. -/
def existingRead (db : DB) (sel : DeviceSelector) (serviceIds : List Nat) :
    List ServiceInstall :=
  db.serviceInstalls.filter fun si =>
    selectorInstallMatches db sel si && serviceIds.contains si.installs__service

/-- Service ids already installed on a device, out of a list of install
rows (`_.groupBy` by device followed by the per-device lookup). -/
def installedServiceIds (installs : List ServiceInstall) (deviceId : Nat) :
    List Nat :=
  (installs.filter fun si => si.device == deviceId).map (·.installs__service)

/-- Per device, `_.difference(serviceIds, existingServiceIds)`. -/
def newServiceIdsFor (serviceIds : List Nat) (existing : List ServiceInstall)
    (deviceId : Nat) : List Nat :=
  serviceIds.filter fun s => !(installedServiceIds existing deviceId).contains s

/-- The rows created by the per-device fan-out: for each device, one row
per service of the release not already installed.  All decisions are made
against the single existing-install read performed beforehand. -/
def createdInstalls (serviceIds : List Nat) (existing : List ServiceInstall)
    (deviceIds : List Nat) : List ServiceInstall :=
  deviceIds.flatMap fun d =>
    (newServiceIdsFor serviceIds existing d).map fun s => ServiceInstall.mk d s

/-- `createReleaseServiceInstalls(api, deviceFilterOrIds, releaseFilter)`:
resolves the device selector, short-circuits on
`deviceFilterOrIds.length === 0`, reads the release's services,
short-circuits when none, reads the existing installs for the device set,
and creates one `service_install` per missing (device, service) pair. -/
def createReleaseServiceInstalls (api : Api) (db : DB) (sel : DeviceSelector)
    (rf : ReleaseFilter) : DB × List StoreOp :=
  let deviceIds := resolvedIds db sel
  if selectorLengthIsZero sel then (db, resolveOps api sel)
  else
    let serviceIds := releaseServices db rf
    if serviceIds.isEmpty then
      (db, resolveOps api sel ++ [StoreOp.readServices api.perm])
    else
      let created :=
        createdInstalls serviceIds (existingRead db sel serviceIds) deviceIds
      ({ db with serviceInstalls := db.serviceInstalls ++ created },
       resolveOps api sel ++ [StoreOp.readServices api.perm] ++
         [StoreOp.readInstalls api.perm] ++
         created.map fun si =>
           StoreOp.createInstall api.perm si.device si.installs__service)

/-- `createAppServiceInstalls(api, appId, deviceIds)`: reconcile the
devices against the release pinned as the application's default. -/
def createAppServiceInstalls (api : Api) (db : DB) (appId : Nat)
    (deviceIds : List Nat) : DB × List StoreOp :=
  createReleaseServiceInstalls api db (.ids deviceIds) (.pinnedByApp appId)

/-- Does a service's owning application own any device of the batch?  This
is the nested `$any` chain of the delete filter of
`deleteServiceInstallsForCurrentApp`. -/
def serviceAppOwnsBatchDevice (db : DB) (deviceIds : List Nat)
    (serviceId : Nat) : Bool :=
  db.services.any fun s =>
    s.id == serviceId &&
      db.applications.any fun a =>
        a.id == s.application &&
          db.devices.any fun d =>
            d.belongs_to__application == a.id && deviceIds.contains d.id

/-- `deleteServiceInstallsForCurrentApp(api, deviceIds)`: delete every
`service_install` row whose device is in the batch and whose service
belongs to an application owning any device of the batch. -/
def deleteServiceInstallsForCurrentApp (api : Api) (db : DB)
    (deviceIds : List Nat) : DB × List StoreOp :=
  ({ db with serviceInstalls := db.serviceInstalls.filter fun si =>
      !(deviceIds.contains si.device &&
        serviceAppOwnsBatchDevice db deviceIds si.installs__service) },
   [StoreOp.deleteInstalls api.perm deviceIds])

/-- Distinct keys in first-occurrence order (the keys of `_.groupBy`). -/
def dedupKeys : List Nat → List Nat
  | [] => []
  | k :: rest => k :: (dedupKeys rest).filter (fun x => x != k)

/-- Hook `PATCH resin.application` POSTRUN: when the PATCH carries a
non-null `should_be_running__release` and affected some application,
reconcile the unpinned devices of the affected applications against the
newly pinned release, through the caller-supplied api. -/
def applicationPatchPostrun (api : Api) (db : DB)
    (newPin : Option (Option Nat)) (affectedIds : List Nat) :
    DB × List StoreOp :=
  match newPin with
  | some (some r) =>
      if affectedIds.length != 0 then
        createReleaseServiceInstalls api db (.unpinnedInApps affectedIds)
          (.byId r)
      else (db, [])
  | _ => (db, [])

/-- Hook `POST resin.device` POSTRUN (application installs): when the
device was created, reconcile it against its application's default pin
through a root-permission clone of the api. -/
def devicePostPostrun (api : Api) (db : DB) (belongsTo : Nat)
    (createdDeviceId : Option Nat) : DB × List StoreOp :=
  match createdDeviceId with
  | none => (db, [])
  | some d => createAppServiceInstalls { api with perm := .root } db belongsTo [d]

/-- Hook `PATCH resin.device` PRERUN (application migration): when the
PATCH carries a non-null `belongs_to__application` and affected some
device, purge the installs for the devices' current application, then
reconcile against the destination application's default pin. -/
def devicePatchPrerun (api : Api) (db : DB) (newApp : Option (Option Nat))
    (affectedIds : List Nat) : DB × List StoreOp :=
  match newApp with
  | some (some appId) =>
      if affectedIds.length != 0 then
        let del := deleteServiceInstallsForCurrentApp api db affectedIds
        let crt := createAppServiceInstalls api del.1 appId affectedIds
        (crt.1, del.2 ++ crt.2)
      else (db, [])
  | _ => (db, [])

/-- One step of the per-application fan-out of the null-pin branch: the
group of the key's devices is reconciled against the default pin of the
application id carried by the group's first device
(`devicesByApp[appId][0].belongs_to__application.__id`). -/
def groupStep (api : Api) (devices : List Device) (acc : DB × List StoreOp)
    (appId : Nat) : DB × List StoreOp :=
  let group := devices.filter fun d => d.belongs_to__application == appId
  match group with
  | [] => acc
  | d0 :: _ =>
      let r := createAppServiceInstalls api acc.1 d0.belongs_to__application
        (group.map (·.id))
      (r.1, acc.2 ++ r.2)

/-- Hook `PATCH resin.device` POSTRUN (release pin): fires when the
`should_be_running__release` key is present in the PATCH (including an
explicit null).  Non-null pin: reconcile the affected devices against that
release.  Null pin: read the affected devices' applications, group by
application, and reconcile each group against its application's default
pin. -/
def devicePatchPostrunReleasePin (api : Api) (db : DB)
    (newPin : Option (Option Nat)) (affectedIds : List Nat) :
    DB × List StoreOp :=
  match newPin with
  | none => (db, [])
  | some pin =>
      if affectedIds.length != 0 then
        match pin with
        | some r =>
            createReleaseServiceInstalls api db (.ids affectedIds) (.byId r)
        | none =>
            let devices := db.devices.filter fun d => affectedIds.contains d.id
            let keys := dedupKeys (devices.map (·.belongs_to__application))
            keys.foldl (groupStep api devices)
              (db, [StoreOp.readDevices api.perm])
      else (db, [])

/-- Hook `POST resin.device` POSTRUN (supervisor installs): when the
device was created with a non-null `should_be_managed_by__release`,
reconcile it against that supervisor release through a root-permission
clone of the api. -/
def devicePostPostrunSupervisor (api : Api) (db : DB)
    (supervisorPin : Option (Option Nat)) (createdDeviceId : Option Nat) :
    DB × List StoreOp :=
  match createdDeviceId with
  | none => (db, [])
  | some d =>
      match supervisorPin with
      | some (some r) =>
          createReleaseServiceInstalls { api with perm := .root } db
            (.ids [d]) (.byId r)
      | _ => (db, [])

/-- Hook `PATCH resin.device` POSTRUN (supervisor installs): when the
PATCH carries a non-null `should_be_managed_by__release` and affected
some device, reconcile the affected devices against that supervisor
release. -/
def devicePatchPostrunSupervisor (api : Api) (db : DB)
    (supervisorPin : Option (Option Nat)) (affectedIds : List Nat) :
    DB × List StoreOp :=
  match supervisorPin with
  | some (some r) =>
      if affectedIds.length != 0 then
        createReleaseServiceInstalls api db (.ids affectedIds) (.byId r)
      else (db, [])
  | _ => (db, [])

/-- The device filter of the post-commit update notification:
`belongs_to__application ∈ affectedIds`, `is_running__release` differs
from the new pin, `should_be_running__release` is null. -/
def notifyFilterMatches (affectedIds : List Nat) (newRelease : Nat)
    (d : Device) : Bool :=
  affectedIds.contains d.belongs_to__application &&
    !(d.is_running__release == some newRelease) &&
    d.should_be_running__release == none

/-- Outcome of the notifier hook: the operations issued by the committed
transaction's end callback, and the errors captured (routed to
`captureException`) instead of being rethrown. -/
structure NotifyResult where
  ops : List StoreOp
  captured : List String
deriving DecidableEq, Repr

/-- Hook `PATCH resin.application` POSTRUN (notifier): when the PATCH
carries a non-null pin and affected some application, the transaction-end
callback posts `/v1/update` once, as root, targeting the devices matching
the notify filter; a failure of that call (`postFailure`) is captured and
the callback still returns normally. -/
def applicationPatchNotifierPostrun (db : DB) (newPin : Option (Option Nat))
    (affectedIds : List Nat) (postFailure : Option String) : NotifyResult :=
  match newPin with
  | some (some r) =>
      if affectedIds.length != 0 then
        let targets :=
          (db.devices.filter (notifyFilterMatches affectedIds r)).map (·.id)
        { ops := [StoreOp.postDevicesNotify .root targets],
          captured := postFailure.toList }
      else { ops := [], captured := [] }
  | _ => { ops := [], captured := [] }

/-- The batch of rows a `createReleaseServiceInstalls` call appends to the
store. -/
def crsiCreated (db : DB) (sel : DeviceSelector) (rf : ReleaseFilter) :
    List ServiceInstall :=
  if selectorLengthIsZero sel then []
  else if (releaseServices db rf).isEmpty then []
  else
    createdInstalls (releaseServices db rf)
      (existingRead db sel (releaseServices db rf)) (resolvedIds db sel)

/-- Spec-level phrasing of the null-pin branch of the device release-pin
hook: group the affected devices by application key and reconcile each
group against its own application's default pin.  Compared below with the
code's rendering, which reads the application id off the group's first
device. -/
def reconcileGroupsByAppDefault (api : Api) (db : DB)
    (devices : List Device) : DB × List StoreOp :=
  (dedupKeys (devices.map (·.belongs_to__application))).foldl
    (fun acc a =>
      let r := createAppServiceInstalls api acc.1 a
        ((devices.filter fun d => d.belongs_to__application == a).map (·.id))
      (r.1, acc.2 ++ r.2))
    (db, [StoreOp.readDevices api.perm])

/-- Empty store. -/
def emptyDB : DB :=
  { devices := [], applications := [], services := [], imageParts := [],
    releases := [], serviceInstalls := [] }

/-- Application 1 pinned to release 9 built by services 100 and 101;
device 10 unpinned, device 11 pinned to release 7. -/
def exampleFleetDB : DB :=
  { devices := [⟨10, 1, none, none, none⟩, ⟨11, 1, some 7, none, none⟩],
    applications := [⟨1, some 9⟩],
    services := [⟨100, 1⟩, ⟨101, 1⟩],
    imageParts := [⟨100, 9⟩, ⟨101, 9⟩, ⟨100, 7⟩],
    releases := [7, 9],
    serviceInstalls := [] }

/-- Devices 1 and 3 in application 10 (default release 7, service 100),
device 2 in application 20 (default release 8, service 200). -/
def exampleTwoAppDB : DB :=
  { devices := [⟨1, 10, none, none, none⟩, ⟨2, 20, none, none, none⟩,
      ⟨3, 10, none, none, none⟩],
    applications := [⟨10, some 7⟩, ⟨20, some 8⟩],
    services := [⟨100, 10⟩, ⟨200, 20⟩],
    imageParts := [⟨100, 7⟩, ⟨200, 8⟩],
    releases := [7, 8],
    serviceInstalls := [] }

/-- Device 1 in application 10, device 2 in application 20, service 5
owned by application 20, and an install of service 5 on device 1. -/
def exampleMigrationDB : DB :=
  { devices := [⟨1, 10, none, none, none⟩, ⟨2, 20, none, none, none⟩],
    applications := [⟨10, none⟩, ⟨20, none⟩],
    services := [⟨5, 20⟩],
    imageParts := [], releases := [],
    serviceInstalls := [⟨1, 5⟩] }

/-- No devices, but application 1 is pinned to release 9 built by
service 100. -/
def exampleNoDevicesDB : DB :=
  { devices := [],
    applications := [⟨1, some 9⟩],
    services := [⟨100, 1⟩],
    imageParts := [⟨100, 9⟩],
    releases := [9],
    serviceInstalls := [] }

lemma releaseServices_update (db : DB) (x : List ServiceInstall)
    (rf : ReleaseFilter) :
    releaseServices { db with serviceInstalls := x } rf = releaseServices db rf :=
  rfl

lemma resolvedIds_update (db : DB) (x : List ServiceInstall)
    (sel : DeviceSelector) :
    resolvedIds { db with serviceInstalls := x } sel = resolvedIds db sel := by
  cases sel <;> rfl

lemma selectorInstallMatches_update (db : DB) (x : List ServiceInstall)
    (sel : DeviceSelector) (si : ServiceInstall) :
    selectorInstallMatches { db with serviceInstalls := x } sel si =
      selectorInstallMatches db sel si := by
  cases sel <;> rfl

lemma crsi_fst (api : Api) (db : DB) (sel : DeviceSelector)
    (rf : ReleaseFilter) :
    (createReleaseServiceInstalls api db sel rf).1 =
      { db with serviceInstalls :=
          db.serviceInstalls ++ crsiCreated db sel rf } := by
  by_cases h1 : selectorLengthIsZero sel = true
  · simp [createReleaseServiceInstalls, crsiCreated, h1]
  · by_cases h2 : (releaseServices db rf).isEmpty = true
    · simp [createReleaseServiceInstalls, crsiCreated, h1, h2]
    · simp [createReleaseServiceInstalls, crsiCreated, h1, h2]

lemma crsi_snd (api : Api) (db : DB) (sel : DeviceSelector)
    (rf : ReleaseFilter) :
    (createReleaseServiceInstalls api db sel rf).2 =
      if selectorLengthIsZero sel then resolveOps api sel
      else if (releaseServices db rf).isEmpty then
        resolveOps api sel ++ [StoreOp.readServices api.perm]
      else
        resolveOps api sel ++ [StoreOp.readServices api.perm] ++
          [StoreOp.readInstalls api.perm] ++
          (crsiCreated db sel rf).map fun si =>
            StoreOp.createInstall api.perm si.device si.installs__service := by
  by_cases h1 : selectorLengthIsZero sel = true
  · simp [createReleaseServiceInstalls, crsiCreated, h1]
  · by_cases h2 : (releaseServices db rf).isEmpty = true
    · simp [createReleaseServiceInstalls, crsiCreated, h1, h2]
    · simp [createReleaseServiceInstalls, crsiCreated, h1, h2]

lemma mem_installedServiceIds {ex : List ServiceInstall} {d s : Nat} :
    s ∈ installedServiceIds ex d ↔ ServiceInstall.mk d s ∈ ex := by
  simp only [installedServiceIds, List.mem_map, List.mem_filter, beq_iff_eq]
  constructor
  · rintro ⟨⟨dev, svc⟩, ⟨hmem, hdev⟩, hsvc⟩
    cases hdev; cases hsvc; exact hmem
  · intro h
    exact ⟨⟨d, s⟩, ⟨h, rfl⟩, rfl⟩


lemma contains_eq_false_iff {α : Type} [BEq α] [LawfulBEq α] {l : List α}
    {a : α} : l.contains a = false ↔ a ∉ l := by
  rw [← Bool.not_eq_true, not_iff_not, List.elem_iff]

lemma mem_createdInstalls {S : List Nat} {ex : List ServiceInstall}
    {ids : List Nat} {d s : Nat} :
    ServiceInstall.mk d s ∈ createdInstalls S ex ids ↔
      d ∈ ids ∧ s ∈ S ∧ ServiceInstall.mk d s ∉ ex := by
  simp only [createdInstalls, List.mem_flatMap, List.mem_map, newServiceIdsFor,
    List.mem_filter, Bool.not_eq_true', ServiceInstall.mk.injEq]
  constructor
  · rintro ⟨d', hd', s', ⟨⟨hs', hnc⟩, rfl, rfl⟩⟩
    refine ⟨hd', hs', fun hmem => ?_⟩
    rw [← mem_installedServiceIds] at hmem
    rw [contains_eq_false_iff] at hnc
    exact hnc hmem
  · rintro ⟨hd, hs, hnot⟩
    refine ⟨d, hd, s, ⟨⟨hs, ?_⟩, rfl, rfl⟩⟩
    rw [contains_eq_false_iff, mem_installedServiceIds]
    exact hnot

lemma selectorInstallMatches_resolved {db : DB} {sel : DeviceSelector}
    {d : Nat} (h : d ∈ resolvedIds db sel) (s : Nat) :
    selectorInstallMatches db sel ⟨d, s⟩ = true := by
  cases sel with
  | ids l =>
      simpa [selectorInstallMatches, List.elem_iff] using h
  | unpinnedInApps appIds =>
      simp only [resolvedIds, List.mem_map, List.mem_filter] at h
      obtain ⟨dd, ⟨hmem, hf⟩, hid⟩ := h
      simp only [selectorInstallMatches, List.any_eq_true]
      exact ⟨dd, hmem, by simp [hid, hf]⟩

lemma mem_crsiCreated {db : DB} {sel : DeviceSelector} {rf : ReleaseFilter}
    {d s : Nat} (h1 : selectorLengthIsZero sel = false)
    (h2 : (releaseServices db rf).isEmpty = false) :
    ServiceInstall.mk d s ∈ crsiCreated db sel rf ↔
      d ∈ resolvedIds db sel ∧ s ∈ releaseServices db rf ∧
        ServiceInstall.mk d s ∉ existingRead db sel (releaseServices db rf) := by
  unfold crsiCreated
  simp only [h1, h2, Bool.false_eq_true, if_false]
  exact mem_createdInstalls

lemma existingRead_update (db : DB) (x : List ServiceInstall)
    (sel : DeviceSelector) (S : List Nat) :
    existingRead { db with serviceInstalls := x } sel S =
      x.filter fun si =>
        selectorInstallMatches db sel si && S.contains si.installs__service := by
  cases sel <;> rfl

lemma mem_existingRead {db : DB} {sel : DeviceSelector} {S : List Nat}
    {d s : Nat} (hd : d ∈ resolvedIds db sel) (hs : s ∈ S)
    (hmem : ServiceInstall.mk d s ∈ db.serviceInstalls) :
    ServiceInstall.mk d s ∈ existingRead db sel S := by
  unfold existingRead
  rw [List.mem_filter]
  refine ⟨hmem, ?_⟩
  rw [Bool.and_eq_true]
  exact ⟨selectorInstallMatches_resolved hd s, by rwa [List.elem_iff]⟩

lemma crsiCreated_after_run (api : Api) (db : DB) (sel : DeviceSelector)
    (rf : ReleaseFilter) :
    crsiCreated (createReleaseServiceInstalls api db sel rf).1 sel rf = [] := by
  rw [crsi_fst]
  by_cases h1 : selectorLengthIsZero sel = true
  · unfold crsiCreated
    simp [h1]
  · by_cases h2 : (releaseServices db rf).isEmpty = true
    · unfold crsiCreated
      simp [h1, h2, releaseServices_update]
  -- main branch: the second run finds every candidate pair already present
    · rw [List.eq_nil_iff_forall_not_mem]
      rintro ⟨d, s⟩ hsi
      rw [mem_crsiCreated (Bool.not_eq_true _ ▸ h1)
        (by rw [releaseServices_update]; exact Bool.not_eq_true _ ▸ h2)] at hsi
      rw [resolvedIds_update, releaseServices_update, existingRead_update] at hsi
      obtain ⟨hd, hs, hnot⟩ := hsi
      apply hnot
      rw [List.filter_append, List.mem_append]
      by_cases hmem : ServiceInstall.mk d s ∈ db.serviceInstalls
      · left
        exact mem_existingRead hd hs hmem
      · right
        have hC : ServiceInstall.mk d s ∈ crsiCreated db sel rf := by
          rw [mem_crsiCreated (Bool.not_eq_true _ ▸ h1) (Bool.not_eq_true _ ▸ h2)]
          exact ⟨hd, hs, fun hex => hmem (List.mem_of_mem_filter hex)⟩
        rw [List.mem_filter]
        refine ⟨hC, ?_⟩
        rw [Bool.and_eq_true]
        exact ⟨selectorInstallMatches_resolved hd s, by rwa [List.elem_iff]⟩

lemma crsi_ops_shape {api : Api} {db : DB} {sel : DeviceSelector}
    {rf : ReleaseFilter} {op : StoreOp}
    (h : op ∈ (createReleaseServiceInstalls api db sel rf).2) :
    op.isDelete = false ∧ op.permOf = api.perm := by
  rw [crsi_snd] at h
  split at h
  · cases sel with
    | ids l => simp [resolveOps] at h
    | unpinnedInApps a =>
        simp only [resolveOps, List.mem_singleton] at h
        subst h; exact ⟨rfl, rfl⟩
  · split at h
    · cases sel with
      | ids l =>
          simp only [resolveOps, List.nil_append, List.mem_singleton] at h
          subst h; exact ⟨rfl, rfl⟩
      | unpinnedInApps a =>
          simp only [resolveOps, List.cons_append, List.nil_append,
            List.mem_cons, List.mem_singleton, List.not_mem_nil, or_false,
            false_or] at h
          rcases h with h | h <;> (subst h; exact ⟨rfl, rfl⟩)
    · cases sel with
      | ids l =>
          simp only [resolveOps, List.nil_append, List.cons_append,
            List.mem_append, List.mem_cons, List.mem_singleton,
            List.not_mem_nil, List.mem_map, or_false, false_or] at h
          rcases h with h | h | ⟨si, hsi, h⟩ <;>
            (subst h; exact ⟨rfl, rfl⟩)
      | unpinnedInApps a =>
          simp only [resolveOps, List.cons_append, List.nil_append,
            List.mem_append, List.mem_cons, List.mem_singleton,
            List.not_mem_nil, List.mem_map, or_false, false_or] at h
          rcases h with h | h | h | ⟨si, hsi, h⟩ <;>
            (subst h; exact ⟨rfl, rfl⟩)

/-- C2: `createReleaseServiceInstalls` is idempotent: a second run with the
same device selector and release filter creates no new service-install
rows, so the row set after two calls equals the row set after one call. -/
theorem C2_reconcileForRelease_idempotent (api : Api) (db : DB)
    (sel : DeviceSelector) (rf : ReleaseFilter) :
    (createReleaseServiceInstalls api
        (createReleaseServiceInstalls api db sel rf).1 sel rf).1.serviceInstalls =
      (createReleaseServiceInstalls api db sel rf).1.serviceInstalls ∧
    ((createReleaseServiceInstalls api
        (createReleaseServiceInstalls api db sel rf).1 sel rf).2.all
      fun op => !op.isCreate) = true := by
  have h := crsiCreated_after_run api db sel rf
  constructor
  · rw [crsi_fst api (createReleaseServiceInstalls api db sel rf).1 sel rf, h]
    simp
  · rw [crsi_snd api (createReleaseServiceInstalls api db sel rf).1 sel rf, h]
    split
    · cases sel <;> simp [resolveOps, StoreOp.isCreate]
    · split
      · cases sel <;> simp [resolveOps, StoreOp.isCreate]
      · cases sel <;> simp [resolveOps, StoreOp.isCreate]

/-- C8: an empty explicit device-id list short-circuits with zero store
operations (no reads, no writes, store unchanged); a non-short-circuited
call whose resolved service set is empty returns right after the service
read, without reading existing installs and with zero writes. -/
theorem C8_empty_selectors_short_circuit (api : Api) (db : DB)
    (rf : ReleaseFilter) (sel : DeviceSelector)
    (hz : selectorLengthIsZero sel = false)
    (hempty : (releaseServices db rf).isEmpty = true) :
    createReleaseServiceInstalls api db (.ids []) rf = (db, []) ∧
      createReleaseServiceInstalls api db sel rf =
        (db, resolveOps api sel ++ [StoreOp.readServices api.perm]) := by
  constructor
  · rfl
  · unfold createReleaseServiceInstalls
    simp [hz, hempty]

/-- C8 witness: concrete instantiation on the empty store. -/
theorem C8_empty_selectors_short_circuit_witness :
    createReleaseServiceInstalls ⟨.caller⟩ emptyDB (.ids []) (.byId 9) =
        (emptyDB, []) ∧
      createReleaseServiceInstalls ⟨.caller⟩ emptyDB (.ids [10]) (.byId 9) =
        (emptyDB, resolveOps ⟨.caller⟩ (.ids [10]) ++
          [StoreOp.readServices Perm.caller]) :=
  C8_empty_selectors_short_circuit ⟨.caller⟩ emptyDB (.byId 9) (.ids [10])
    (by decide) (by decide)

/-- C4: no operation other than the migration purge deletes a
service-install row.  `createReleaseServiceInstalls` only appends created
rows (every row present before the call remains after it) and issues no
delete; in particular the supervisor-pin hooks, on device creation and
device update, only append rows and issue no delete. -/
theorem C4_only_migration_purge_deletes :
    (∀ (api : Api) (db : DB) (sel : DeviceSelector) (rf : ReleaseFilter),
      (createReleaseServiceInstalls api db sel rf).1.serviceInstalls =
          db.serviceInstalls ++ crsiCreated db sel rf ∧
        ((createReleaseServiceInstalls api db sel rf).2.all fun op =>
          !op.isDelete) = true) ∧
    (∀ (api : Api) (db : DB) (pin : Option (Option Nat)) (devId : Option Nat),
      ∃ created,
        (devicePostPostrunSupervisor api db pin devId).1.serviceInstalls =
            db.serviceInstalls ++ created ∧
          ((devicePostPostrunSupervisor api db pin devId).2.all fun op =>
            !op.isDelete) = true) ∧
    (∀ (api : Api) (db : DB) (pin : Option (Option Nat)) (ids : List Nat),
      ∃ created,
        (devicePatchPostrunSupervisor api db pin ids).1.serviceInstalls =
            db.serviceInstalls ++ created ∧
          ((devicePatchPostrunSupervisor api db pin ids).2.all fun op =>
            !op.isDelete) = true) := by
  have hcr : ∀ (api : Api) (db : DB) (sel : DeviceSelector)
      (rf : ReleaseFilter),
      (createReleaseServiceInstalls api db sel rf).1.serviceInstalls =
          db.serviceInstalls ++ crsiCreated db sel rf ∧
        ((createReleaseServiceInstalls api db sel rf).2.all fun op =>
          !op.isDelete) = true := by
    intro api db sel rf
    refine ⟨by rw [crsi_fst], ?_⟩
    rw [List.all_eq_true]
    intro op hop
    have := (crsi_ops_shape hop).1
    simp [this]
  refine ⟨hcr, ?_, ?_⟩
  · intro api db pin devId
    cases devId with
    | none => exact ⟨[], by simp [devicePostPostrunSupervisor], rfl⟩
    | some d =>
        cases pin with
        | none => exact ⟨[], by simp [devicePostPostrunSupervisor], rfl⟩
        | some p =>
            cases p with
            | none => exact ⟨[], by simp [devicePostPostrunSupervisor], rfl⟩
            | some r =>
                exact ⟨_, (hcr _ db (.ids [d]) (.byId r)).1,
                  (hcr _ db (.ids [d]) (.byId r)).2⟩
  · intro api db pin ids
    cases pin with
    | none => exact ⟨[], by simp [devicePatchPostrunSupervisor], rfl⟩
    | some p =>
        cases p with
        | none => exact ⟨[], by simp [devicePatchPostrunSupervisor], rfl⟩
        | some r =>
            by_cases hlen : (ids.length != 0) = true
            · refine ⟨crsiCreated db (.ids ids) (.byId r), ?_, ?_⟩
              · simp only [devicePatchPostrunSupervisor]
                rw [if_pos hlen]
                exact (hcr api db (.ids ids) (.byId r)).1
              · simp only [devicePatchPostrunSupervisor]
                rw [if_pos hlen]
                exact (hcr api db (.ids ids) (.byId r)).2
            · refine ⟨[], ?_, ?_⟩
              · simp only [devicePatchPostrunSupervisor]
                rw [if_neg hlen]
                simp
              · simp only [devicePatchPostrunSupervisor]
                rw [if_neg hlen]
                rfl

lemma mem_resolved_unpinned {db : DB} {appIds : List Nat} {d : Nat}
    (h : d ∈ resolvedIds db (.unpinnedInApps appIds)) :
    ∃ dd ∈ db.devices, dd.id = d ∧ dd.belongs_to__application ∈ appIds ∧
      dd.should_be_running__release = none := by
  simp only [resolvedIds, List.mem_map, List.mem_filter] at h
  obtain ⟨dd, ⟨hmem, hf⟩, hid⟩ := h
  simp only [deviceFilterMatches, Bool.and_eq_true, beq_iff_eq] at hf
  exact ⟨dd, hmem, hid, List.elem_iff.mp hf.1, hf.2⟩

lemma crsiCreated_device_mem {db : DB} {sel : DeviceSelector}
    {rf : ReleaseFilter} {si : ServiceInstall}
    (h : si ∈ crsiCreated db sel rf) : si.device ∈ resolvedIds db sel := by
  unfold crsiCreated at h
  split at h
  · exact absurd h (List.not_mem_nil si)
  · split at h
    · exact absurd h (List.not_mem_nil si)
    · obtain ⟨d, s⟩ := si
      exact (mem_createdInstalls.mp h).1

/-- C1: an application release-pin PATCH reconciles only devices that
belong to an affected application and have a null device-level pin: every
created row targets such a device, no delete is issued, and the install
rows of any device with a non-null device-level pin are unchanged. -/
theorem C1_app_pin_only_affects_unpinned (api : Api) (db : DB) (r : Nat)
    (affectedIds : List Nat) (hA : affectedIds ≠ [])
    (hN : (db.devices.map (·.id)).Nodup) :
    (applicationPatchPostrun api db (some (some r))
        affectedIds).1.serviceInstalls =
      db.serviceInstalls ++
        crsiCreated db (.unpinnedInApps affectedIds) (.byId r) ∧
    (∀ si ∈ crsiCreated db (.unpinnedInApps affectedIds) (.byId r),
      ∃ d ∈ db.devices, d.id = si.device ∧
        d.belongs_to__application ∈ affectedIds ∧
        d.should_be_running__release = none) ∧
    ((applicationPatchPostrun api db (some (some r)) affectedIds).2.all
      fun op => !op.isDelete) = true ∧
    (∀ d ∈ db.devices, d.should_be_running__release ≠ none →
      ((applicationPatchPostrun api db (some (some r))
          affectedIds).1.serviceInstalls.filter
        fun si => si.device == d.id) =
        db.serviceInstalls.filter fun si => si.device == d.id) := by
  have hlen : (affectedIds.length != 0) = true := by
    simp [List.length_eq_zero, hA]
  have hhook : applicationPatchPostrun api db (some (some r)) affectedIds =
      createReleaseServiceInstalls api db (.unpinnedInApps affectedIds)
        (.byId r) := by
    simp only [applicationPatchPostrun]
    rw [if_pos hlen]
  refine ⟨?_, ?_, ?_, ?_⟩
  · rw [hhook, crsi_fst]
  · intro si hsi
    obtain ⟨dd, hmem, hid, happ, hpin⟩ :=
      mem_resolved_unpinned (crsiCreated_device_mem hsi)
    exact ⟨dd, hmem, hid, happ, hpin⟩
  · rw [hhook, List.all_eq_true]
    intro op hop
    simp [(crsi_ops_shape hop).1]
  · intro d hdmem hdpin
    rw [hhook, crsi_fst]
    show ((db.serviceInstalls ++
        crsiCreated db (.unpinnedInApps affectedIds) (.byId r)).filter
      fun si => si.device == d.id) = _
    rw [List.filter_append]
    have hC : ((crsiCreated db (.unpinnedInApps affectedIds) (.byId r)).filter
        fun si => si.device == d.id) = [] := by
      rw [List.filter_eq_nil_iff]
      intro si hsi hbeq
      obtain ⟨dd, hmem, hid, happ, hpin⟩ :=
        mem_resolved_unpinned (crsiCreated_device_mem hsi)
      have hdev : si.device = d.id := by simpa using hbeq
      have : dd = d :=
        List.inj_on_of_nodup_map hN hmem hdmem (hid.trans hdev)
      exact hdpin (this ▸ hpin)
    rw [hC, List.append_nil]

/-- C1 witness: concrete application-pin PATCH on a fleet with one
unpinned and one pinned device. -/
theorem C1_app_pin_only_affects_unpinned_witness :
    (applicationPatchPostrun ⟨.caller⟩ exampleFleetDB (some (some 9))
        [1]).1.serviceInstalls =
      exampleFleetDB.serviceInstalls ++
        crsiCreated exampleFleetDB (.unpinnedInApps [1]) (.byId 9) :=
  (C1_app_pin_only_affects_unpinned ⟨.caller⟩ exampleFleetDB 9 [1]
    (by decide) (by decide)).1

/-- C3: the application-migration PRERUN hook issues the purge of the
devices' current-application installs first, and every following
operation is a non-delete (the creates for the destination application's
default pin all come after the delete); the final store is the purge
followed by the reconcile. -/
theorem C3_migration_purges_then_creates (api : Api) (db : DB) (appId : Nat)
    (affectedIds : List Nat) (hA : affectedIds ≠ []) :
    (devicePatchPrerun api db (some (some appId)) affectedIds).2 =
        StoreOp.deleteInstalls api.perm affectedIds ::
          (createAppServiceInstalls api
            (deleteServiceInstallsForCurrentApp api db affectedIds).1 appId
            affectedIds).2 ∧
    ((devicePatchPrerun api db (some (some appId)) affectedIds).2.tail.all
        fun op => !op.isDelete) = true ∧
    (devicePatchPrerun api db (some (some appId)) affectedIds).1 =
      (createAppServiceInstalls api
        (deleteServiceInstallsForCurrentApp api db affectedIds).1 appId
        affectedIds).1 := by
  have hlen : (affectedIds.length != 0) = true := by
    simp [List.length_eq_zero, hA]
  have hhook : devicePatchPrerun api db (some (some appId)) affectedIds =
      ((createAppServiceInstalls api
          (deleteServiceInstallsForCurrentApp api db affectedIds).1 appId
          affectedIds).1,
        StoreOp.deleteInstalls api.perm affectedIds ::
          (createAppServiceInstalls api
            (deleteServiceInstallsForCurrentApp api db affectedIds).1 appId
            affectedIds).2) := by
    simp only [devicePatchPrerun]
    rw [if_pos hlen]
    rfl
  refine ⟨by rw [hhook], ?_, by rw [hhook]⟩
  rw [hhook, List.tail_cons, List.all_eq_true]
  intro op hop
  simp [(crsi_ops_shape hop).1]

/-- C3 witness: concrete migration PATCH. -/
theorem C3_migration_purges_then_creates_witness :
    (devicePatchPrerun ⟨.caller⟩ exampleMigrationDB (some (some 20)) [1]).2 =
      StoreOp.deleteInstalls Perm.caller [1] ::
        (createAppServiceInstalls ⟨.caller⟩
          (deleteServiceInstallsForCurrentApp ⟨.caller⟩ exampleMigrationDB
            [1]).1 20 [1]).2 :=
  (C3_migration_purges_then_creates ⟨.caller⟩ exampleMigrationDB 20 [1]
    (by decide)).1

lemma serviceAppOwnsBatchDevice_iff {db : DB} {deviceIds : List Nat}
    {sId : Nat} :
    serviceAppOwnsBatchDevice db deviceIds sId = true ↔
      ∃ s ∈ db.services, s.id = sId ∧
        ∃ a ∈ db.applications, a.id = s.application ∧
          ∃ d ∈ db.devices, d.belongs_to__application = a.id ∧
            d.id ∈ deviceIds := by
  simp [serviceAppOwnsBatchDevice, List.any_eq_true, Bool.and_eq_true,
    beq_iff_eq, List.elem_iff]

/-- C10: the migration purge deletes a row exactly when its device is in
the batch and its service's owning application owns *any* device of the
batch — not only the row's own device's application; for a batch spanning
several applications a device can thus lose installs for another batch
member's application. -/
theorem C10_purge_is_batch_wide (api : Api) (db : DB) (deviceIds : List Nat)
    (si : ServiceInstall) (h : si ∈ db.serviceInstalls) :
    si ∉ (deleteServiceInstallsForCurrentApp api db
        deviceIds).1.serviceInstalls ↔
      si.device ∈ deviceIds ∧
        ∃ s ∈ db.services, s.id = si.installs__service ∧
          ∃ a ∈ db.applications, a.id = s.application ∧
            ∃ d ∈ db.devices, d.belongs_to__application = a.id ∧
              d.id ∈ deviceIds := by
  have hfil : (deleteServiceInstallsForCurrentApp api db
      deviceIds).1.serviceInstalls =
      db.serviceInstalls.filter fun x =>
        !(deviceIds.contains x.device &&
          serviceAppOwnsBatchDevice db deviceIds x.installs__service) := rfl
  rw [hfil]
  constructor
  · intro hnot
    have hnp : ¬ (!(deviceIds.contains si.device &&
        serviceAppOwnsBatchDevice db deviceIds si.installs__service)) = true :=
      fun hp => hnot (List.mem_filter.mpr ⟨h, hp⟩)
    have hband : (deviceIds.contains si.device &&
        serviceAppOwnsBatchDevice db deviceIds si.installs__service) = true := by
      revert hnp
      cases deviceIds.contains si.device &&
        serviceAppOwnsBatchDevice db deviceIds si.installs__service <;> simp
    rw [Bool.and_eq_true] at hband
    obtain ⟨h1, h2⟩ := hband
    refine ⟨?_, serviceAppOwnsBatchDevice_iff.mp h2⟩
    rw [List.elem_iff] at h1
    exact h1
  · rintro ⟨h1, h2⟩ hmem
    have hp := (List.mem_filter.mp hmem).2
    have hc : deviceIds.contains si.device = true := by
      rw [List.elem_iff]; exact h1
    rw [hc, serviceAppOwnsBatchDevice_iff.mpr h2] at hp
    simp at hp

/-- C10 witness: device 1 (application 10) loses its install of service 5
(owned by application 20) because batch member device 2 belongs to
application 20. -/
theorem C10_purge_is_batch_wide_witness :
    (⟨1, 5⟩ : ServiceInstall) ∉ (deleteServiceInstallsForCurrentApp
      ⟨.caller⟩ exampleMigrationDB [1, 2]).1.serviceInstalls :=
  (C10_purge_is_batch_wide ⟨.caller⟩ exampleMigrationDB [1, 2] ⟨1, 5⟩
      (by decide)).mpr
    ⟨by decide, ⟨5, 20⟩, by decide, rfl, ⟨20, none⟩, by decide, rfl,
      ⟨2, 20, none, none, none⟩, by decide, rfl, by decide⟩

lemma all_permOf_of_forall {p : Perm} {l : List StoreOp}
    (h : ∀ op ∈ l, op.permOf = p) :
    (l.all fun op => op.permOf == p) = true := by
  rw [List.all_eq_true]
  intro op hop
  rw [beq_iff_eq]
  exact h op hop

lemma groupStep_ops_pred {api : Api} {devices : List Device}
    {P : StoreOp → Prop}
    (hP : ∀ (db' : DB) (a : Nat) (l : List Nat),
      ∀ op ∈ (createAppServiceInstalls api db' a l).2, P op)
    (keys : List Nat) (init : DB × List StoreOp)
    (hinit : ∀ op ∈ init.2, P op) :
    ∀ op ∈ (keys.foldl (groupStep api devices) init).2, P op := by
  induction keys generalizing init with
  | nil => exact hinit
  | cons k ks ih =>
      rw [List.foldl_cons]
      apply ih
      intro op hop
      simp only [groupStep] at hop
      cases hfil : devices.filter (fun d => d.belongs_to__application == k) with
      | nil =>
          rw [hfil] at hop
          exact hinit op hop
      | cons d0 tl =>
          rw [hfil] at hop
          dsimp only at hop
          rcases List.mem_append.mp hop with hmem | hmem
          · exact hinit op hmem
          · exact hP _ _ _ op hmem

/-- C6 counterexample: with a caller-context api, the application-pin
hook's reconciliation runs every operation under the caller's permission
context — not root — while the device-creation hook's operations do run
as root; this is the opposite of the claimed assignment. -/
theorem C6_counterexample :
    (applicationPatchPostrun ⟨.caller⟩ exampleFleetDB (some (some 9))
        [1]).2 =
      [StoreOp.readDevices .caller, StoreOp.readServices .caller,
        StoreOp.readInstalls .caller, StoreOp.createInstall .caller 10 100,
        StoreOp.createInstall .caller 10 101] ∧
    (devicePostPostrun ⟨.caller⟩ exampleFleetDB 1 (some 10)).2 =
      [StoreOp.readServices .root, StoreOp.readInstalls .root,
        StoreOp.createInstall .root 10 100,
        StoreOp.createInstall .root 10 101] := by
  decide

/-- C6 (amended): the reconciliations triggered by device creation (both
the app-default one and the supervisor one) run under the elevated root
permission context, as does the post-commit notifier; the
application-pin-driven reconciliation and all device PATCH hooks run under
the permission context supplied with the mutation's api. -/
theorem C6_permission_contexts (api : Api) (db : DB)
    (newPin newApp supPin : Option (Option Nat)) (affectedIds : List Nat)
    (belongsTo : Nat) (createdDeviceId : Option Nat)
    (postFailure : Option String) :
    ((applicationPatchPostrun api db newPin affectedIds).2.all fun op =>
        op.permOf == api.perm) = true ∧
    ((devicePostPostrun api db belongsTo createdDeviceId).2.all fun op =>
        op.permOf == Perm.root) = true ∧
    ((devicePostPostrunSupervisor api db supPin createdDeviceId).2.all
        fun op => op.permOf == Perm.root) = true ∧
    ((devicePatchPrerun api db newApp affectedIds).2.all fun op =>
        op.permOf == api.perm) = true ∧
    ((devicePatchPostrunReleasePin api db newPin affectedIds).2.all fun op =>
        op.permOf == api.perm) = true ∧
    ((devicePatchPostrunSupervisor api db supPin affectedIds).2.all fun op =>
        op.permOf == api.perm) = true ∧
    ((applicationPatchNotifierPostrun db newPin affectedIds
        postFailure).ops.all fun op => op.permOf == Perm.root) = true := by
  refine ⟨?_, ?_, ?_, ?_, ?_, ?_, ?_⟩
  · rcases newPin with _ | (_ | r)
    · rfl
    · rfl
    · by_cases hlen : (affectedIds.length != 0) = true
      · simp only [applicationPatchPostrun]
        rw [if_pos hlen]
        exact all_permOf_of_forall fun op hop => (crsi_ops_shape hop).2
      · simp only [applicationPatchPostrun]
        rw [if_neg hlen]
        rfl
  · rcases createdDeviceId with _ | d
    · rfl
    · exact all_permOf_of_forall fun op hop => (crsi_ops_shape hop).2
  · rcases createdDeviceId with _ | d
    · rfl
    · rcases supPin with _ | (_ | r)
      · rfl
      · rfl
      · exact all_permOf_of_forall fun op hop => (crsi_ops_shape hop).2
  · rcases newApp with _ | (_ | a)
    · rfl
    · rfl
    · by_cases hlen : (affectedIds.length != 0) = true
      · simp only [devicePatchPrerun]
        rw [if_pos hlen]
        apply all_permOf_of_forall
        intro op hop
        rcases List.mem_append.mp hop with hmem | hmem
        · simp only [deleteServiceInstallsForCurrentApp,
            List.mem_singleton] at hmem
          subst hmem; rfl
        · exact (crsi_ops_shape hmem).2
      · simp only [devicePatchPrerun]
        rw [if_neg hlen]
        rfl
  · rcases newPin with _ | (_ | r)
    · rfl
    · by_cases hlen : (affectedIds.length != 0) = true
      · simp only [devicePatchPostrunReleasePin]
        rw [if_pos hlen]
        apply all_permOf_of_forall
        apply groupStep_ops_pred
        · intro db' a l op hop
          exact (crsi_ops_shape hop).2
        · intro op hop
          simp only [List.mem_singleton] at hop
          subst hop; rfl
      · simp only [devicePatchPostrunReleasePin]
        rw [if_neg hlen]
        rfl
    · by_cases hlen : (affectedIds.length != 0) = true
      · simp only [devicePatchPostrunReleasePin]
        rw [if_pos hlen]
        exact all_permOf_of_forall fun op hop => (crsi_ops_shape hop).2
      · simp only [devicePatchPostrunReleasePin]
        rw [if_neg hlen]
        rfl
  · rcases supPin with _ | (_ | r)
    · rfl
    · rfl
    · by_cases hlen : (affectedIds.length != 0) = true
      · simp only [devicePatchPostrunSupervisor]
        rw [if_pos hlen]
        exact all_permOf_of_forall fun op hop => (crsi_ops_shape hop).2
      · simp only [devicePatchPostrunSupervisor]
        rw [if_neg hlen]
        rfl
  · rcases newPin with _ | (_ | r)
    · rfl
    · rfl
    · by_cases hlen : (affectedIds.length != 0) = true
      · simp only [applicationPatchNotifierPostrun]
        rw [if_pos hlen]
        rfl
      · simp only [applicationPatchNotifierPostrun]
        rw [if_neg hlen]
        rfl

lemma mem_dedupKeys {l : List Nat} {a : Nat} : a ∈ dedupKeys l ↔ a ∈ l := by
  induction l with
  | nil => simp [dedupKeys]
  | cons k ks ih =>
      simp only [dedupKeys, List.mem_cons, List.mem_filter, bne_iff_ne, ne_eq]
      constructor
      · rintro (rfl | ⟨h, _⟩)
        · exact .inl rfl
        · exact .inr (ih.mp h)
      · rintro (rfl | h)
        · exact .inl rfl
        · by_cases hk : a = k
          · exact .inl hk
          · exact .inr ⟨ih.mpr h, hk⟩

lemma foldl_groupStep_spec (api : Api) (devices : List Device) :
    ∀ keys : List Nat,
      (∀ a ∈ keys, ∃ d ∈ devices, d.belongs_to__application = a) →
      ∀ init : DB × List StoreOp,
        keys.foldl (groupStep api devices) init =
          keys.foldl (fun acc a =>
            let r := createAppServiceInstalls api acc.1 a
              ((devices.filter fun d =>
                d.belongs_to__application == a).map (·.id))
            (r.1, acc.2 ++ r.2)) init := by
  intro keys
  induction keys with
  | nil => intro _ init; rfl
  | cons k ks ih =>
      intro hkeys init
      rw [List.foldl_cons, List.foldl_cons]
      have hk := hkeys k (List.mem_cons_self k ks)
      have hstep : groupStep api devices init k =
          (let r := createAppServiceInstalls api init.1 k
            ((devices.filter fun d =>
              d.belongs_to__application == k).map (·.id))
          (r.1, init.2 ++ r.2)) := by
        simp only [groupStep]
        cases hfil : devices.filter
            (fun d => d.belongs_to__application == k) with
        | nil =>
            obtain ⟨d, hd, ha⟩ := hk
            exfalso
            have hmem : d ∈ devices.filter
                (fun d => d.belongs_to__application == k) :=
              List.mem_filter.mpr ⟨hd, by simp [ha]⟩
            rw [hfil] at hmem
            exact absurd hmem (List.not_mem_nil d)
        | cons d0 tl =>
            have hd0mem : d0 ∈ devices.filter
                (fun d => d.belongs_to__application == k) := by
              rw [hfil]
              exact List.mem_cons_self d0 tl
            have hd0 : d0.belongs_to__application = k := by
              have := (List.mem_filter.mp hd0mem).2
              simpa using this
            dsimp only
            rw [hd0]
      rw [hstep]
      exact ih (fun a ha => hkeys a (List.mem_cons_of_mem _ ha)) _

/-- C5: the device release-pin POSTRUN hook, when the pin key is present
and devices are affected: a non-null pin reconciles the affected devices
against that release; a null pin reads the affected devices, groups them
by their current application, and reconciles each group against its own
application's default pin. -/
theorem C5_device_pin_update_dispatch (api : Api) (db : DB)
    (affectedIds : List Nat) (hA : affectedIds ≠ []) :
    (∀ r, devicePatchPostrunReleasePin api db (some (some r)) affectedIds =
        createReleaseServiceInstalls api db (.ids affectedIds) (.byId r)) ∧
    devicePatchPostrunReleasePin api db (some none) affectedIds =
      reconcileGroupsByAppDefault api db
        (db.devices.filter fun d => affectedIds.contains d.id) := by
  have hlen : (affectedIds.length != 0) = true := by
    simp [List.length_eq_zero, hA]
  constructor
  · intro r
    simp only [devicePatchPostrunReleasePin]
    rw [if_pos hlen]
  · simp only [devicePatchPostrunReleasePin]
    rw [if_pos hlen]
    unfold reconcileGroupsByAppDefault
    apply foldl_groupStep_spec
    intro a ha
    rw [mem_dedupKeys] at ha
    simp only [List.mem_map] at ha
    obtain ⟨d, hd, hda⟩ := ha
    exact ⟨d, hd, hda⟩

/-- C5 witness: three affected devices across two applications, pin
cleared to null. -/
theorem C5_device_pin_update_dispatch_witness :
    devicePatchPostrunReleasePin ⟨.caller⟩ exampleTwoAppDB (some none)
        [1, 2, 3] =
      reconcileGroupsByAppDefault ⟨.caller⟩ exampleTwoAppDB
        (exampleTwoAppDB.devices.filter fun d => [1, 2, 3].contains d.id) :=
  (C5_device_pin_update_dispatch ⟨.caller⟩ exampleTwoAppDB [1, 2, 3]
    (by decide)).2

/-- C7: after an application release-pin change the post-commit
notification targets exactly the devices of affected applications whose
currently running release differs from the new pin and whose device-level
pin is null; a failure of the notification call is captured (routed to the
error sink) and the callback returns normally — exactly one notification
attempt is made, with no retry. -/
theorem C7_notifier_targets_and_error_isolation (db : DB) (r : Nat)
    (affectedIds : List Nat) (postFailure : Option String)
    (hA : affectedIds ≠ []) (hN : (db.devices.map (·.id)).Nodup) :
    (∃ targets,
      (applicationPatchNotifierPostrun db (some (some r)) affectedIds
          postFailure).ops = [StoreOp.postDevicesNotify .root targets] ∧
      ∀ d ∈ db.devices, (d.id ∈ targets ↔
        (d.belongs_to__application ∈ affectedIds ∧
          d.is_running__release ≠ some r ∧
          d.should_be_running__release = none))) ∧
    (applicationPatchNotifierPostrun db (some (some r)) affectedIds
        postFailure).captured = postFailure.toList := by
  have hlen : (affectedIds.length != 0) = true := by
    simp [List.length_eq_zero, hA]
  have hhook : applicationPatchNotifierPostrun db (some (some r)) affectedIds
      postFailure =
      { ops := [StoreOp.postDevicesNotify .root
          ((db.devices.filter (notifyFilterMatches affectedIds r)).map
            (·.id))],
        captured := postFailure.toList } := by
    simp only [applicationPatchNotifierPostrun]
    rw [if_pos hlen]
  refine ⟨⟨_, by rw [hhook], ?_⟩, by rw [hhook]⟩
  intro d hd
  constructor
  · intro hmem
    simp only [List.mem_map, List.mem_filter] at hmem
    obtain ⟨dd, ⟨hddmem, hf⟩, hid⟩ := hmem
    have hdd : dd = d := List.inj_on_of_nodup_map hN hddmem hd hid
    subst hdd
    simp only [notifyFilterMatches, Bool.and_eq_true, Bool.not_eq_true',
      beq_iff_eq, beq_eq_false_iff_ne, ne_eq] at hf
    exact ⟨List.elem_iff.mp hf.1.1, hf.1.2, hf.2⟩
  · rintro ⟨h1, h2, h3⟩
    simp only [List.mem_map, List.mem_filter]
    refine ⟨d, ⟨hd, ?_⟩, rfl⟩
    simp only [notifyFilterMatches, Bool.and_eq_true, Bool.not_eq_true',
      beq_iff_eq, beq_eq_false_iff_ne, ne_eq]
    exact ⟨⟨List.elem_iff.mpr h1, h2⟩, h3⟩

/-- C7 witness: device 10 (unpinned, not running release 9) is targeted;
the failure string is captured. -/
theorem C7_notifier_targets_and_error_isolation_witness :
    (applicationPatchNotifierPostrun exampleFleetDB (some (some 9)) [1]
        (some "network unreachable")).captured = ["network unreachable"] :=
  (C7_notifier_targets_and_error_isolation exampleFleetDB 9 [1]
    (some "network unreachable") (by decide) (by decide)).2

/-- C9 counterexample: on the empty store the filter-object selector
resolves to zero devices, yet the call ends after the device read and the
service read — the claimed service-install read is not issued when the
resolved service set is empty. -/
theorem C9_counterexample :
    resolvedIds emptyDB (.unpinnedInApps [1]) = [] ∧
      (createReleaseServiceInstalls ⟨.caller⟩ emptyDB (.unpinnedInApps [1])
          (.byId 9)).2 =
        [StoreOp.readDevices .caller, StoreOp.readServices .caller] := by
  decide

/-- C9 (amended): for a filter-object selector the empty-device
short-circuit never fires (the length check sees the filter object, not
the resolved list): the device read and the service read are always
issued; the service-install read is issued whenever the resolved service
set is non-empty (with an empty service set the call returns right after
the service read); and when the filter resolves to zero devices, zero
service-install writes are performed and the store is unchanged. -/
theorem C9_filter_skips_short_circuit (api : Api) (db : DB)
    (appIds : List Nat) (rf : ReleaseFilter)
    (hz : resolvedIds db (.unpinnedInApps appIds) = []) :
    StoreOp.readDevices api.perm ∈
      (createReleaseServiceInstalls api db (.unpinnedInApps appIds) rf).2 ∧
    StoreOp.readServices api.perm ∈
      (createReleaseServiceInstalls api db (.unpinnedInApps appIds) rf).2 ∧
    ((releaseServices db rf).isEmpty = false →
      StoreOp.readInstalls api.perm ∈
        (createReleaseServiceInstalls api db (.unpinnedInApps appIds) rf).2) ∧
    (createReleaseServiceInstalls api db (.unpinnedInApps appIds) rf).1 =
      db ∧
    ((createReleaseServiceInstalls api db (.unpinnedInApps appIds) rf).2.all
      fun op => !op.isCreate) = true := by
  have hC : crsiCreated db (.unpinnedInApps appIds) rf = [] := by
    unfold crsiCreated
    rw [hz]
    split
    · rfl
    · split
      · rfl
      · rfl
  have hzero : selectorLengthIsZero (.unpinnedInApps appIds) = false := rfl
  refine ⟨?_, ?_, ?_, ?_, ?_⟩
  · rw [crsi_snd]
    simp only [hzero, Bool.false_eq_true, if_false]
    by_cases h2 : (releaseServices db rf).isEmpty = true
    · simp [h2, resolveOps]
    · simp [h2, resolveOps]
  · rw [crsi_snd]
    simp only [hzero, Bool.false_eq_true, if_false]
    by_cases h2 : (releaseServices db rf).isEmpty = true
    · simp [h2, resolveOps]
    · simp [h2, resolveOps]
  · intro hne
    rw [crsi_snd]
    simp only [hzero, Bool.false_eq_true, if_false, hne, resolveOps]
    simp
  · rw [crsi_fst, hC]
    simp
  · rw [crsi_snd]
    simp only [hzero, Bool.false_eq_true, if_false, hC, List.map_nil,
      List.append_nil]
    by_cases h2 : (releaseServices db rf).isEmpty = true
    · simp [h2, resolveOps, StoreOp.isCreate]
    · simp [h2, resolveOps, StoreOp.isCreate]

/-- C9 witness: a store with a pinned application and one service but no
devices: the filter resolves to zero devices yet the install read is
issued. -/
theorem C9_filter_skips_short_circuit_witness :
    StoreOp.readInstalls Perm.caller ∈
      (createReleaseServiceInstalls ⟨.caller⟩ exampleNoDevicesDB
        (.unpinnedInApps [1]) (.byId 9)).2 :=
  (C9_filter_skips_short_circuit ⟨.caller⟩ exampleNoDevicesDB [1] (.byId 9)
    (by decide)).2.2.1 (by decide)
